import Mathlib

/-!
Shallow embedding of the scoring and draft/record-store logic of
`src/EmploymentSupportChecklist.tsx`.

Conventions used throughout:
* Raw responses are JS numbers; we model them as `Int` (the unanswered
  sentinel is `0`).
* The in-memory `evaluations` object, keyed by the composite string
  `evaluator-categoryIndex-itemIndex` with default `|| 0`, is modelled as a
  total function `Evaluator → Nat → Nat → Int` (absence = `0`).
* `Math.round` on a nonnegative finite JS number is `⌊x + 1/2⌋`; division is
  modelled exactly on `ℚ`.
* Collections persisted to localStorage are modelled as Lean lists; the
  `Date.now`-based fresh ids and ISO timestamps are passed in as parameters.
-/

inductive Evaluator
  | self
  | staff
  | family
deriving DecidableEq

/-- The three response types occurring in the static `categories`
configuration. -/
inductive ItemType
  | radio_5_level
  | radio_5_level_with_sub_check
  | radio_2_level_with_sub_check
deriving DecidableEq

structure ChecklistItem where
  id : String
  type : ItemType
deriving DecidableEq

structure Category where
  name : String
  items : List ChecklistItem
deriving DecidableEq

/-- The static checklist configuration (ids and response types of the
34 items of the three categories, as in the `categories` array of the
source; option labels, sub-check texts and triggers are irrelevant to the
scoring logic and omitted). -/
def categories : List Category :=
  [ { name := "I 日常生活",
      items :=
        [ ⟨"I-1", ItemType.radio_5_level⟩,
          ⟨"I-2", ItemType.radio_5_level⟩,
          ⟨"I-3", ItemType.radio_5_level⟩,
          ⟨"I-4", ItemType.radio_5_level⟩,
          ⟨"I-5", ItemType.radio_5_level⟩,
          ⟨"I-6", ItemType.radio_5_level_with_sub_check⟩,
          ⟨"I-7", ItemType.radio_5_level_with_sub_check⟩,
          ⟨"I-8", ItemType.radio_5_level_with_sub_check⟩,
          ⟨"I-9", ItemType.radio_5_level⟩,
          ⟨"I-10", ItemType.radio_5_level⟩,
          ⟨"I-11", ItemType.radio_2_level_with_sub_check⟩ ] },
    { name := "II 働く場での対人関係",
      items :=
        [ ⟨"II-1", ItemType.radio_5_level⟩,
          ⟨"II-2", ItemType.radio_5_level⟩,
          ⟨"II-3", ItemType.radio_5_level⟩,
          ⟨"II-4", ItemType.radio_5_level_with_sub_check⟩,
          ⟨"II-5", ItemType.radio_5_level_with_sub_check⟩,
          ⟨"II-6", ItemType.radio_5_level_with_sub_check⟩,
          ⟨"II-7", ItemType.radio_5_level⟩,
          ⟨"II-8", ItemType.radio_2_level_with_sub_check⟩ ] },
    { name := "III 働く場での行動・態度",
      items :=
        [ ⟨"III-1", ItemType.radio_5_level⟩,
          ⟨"III-2", ItemType.radio_5_level_with_sub_check⟩,
          ⟨"III-3", ItemType.radio_5_level_with_sub_check⟩,
          ⟨"III-4", ItemType.radio_5_level_with_sub_check⟩,
          ⟨"III-5", ItemType.radio_5_level_with_sub_check⟩,
          ⟨"III-6", ItemType.radio_5_level_with_sub_check⟩,
          ⟨"III-7", ItemType.radio_5_level⟩,
          ⟨"III-8", ItemType.radio_5_level_with_sub_check⟩,
          ⟨"III-9", ItemType.radio_5_level⟩,
          ⟨"III-10", ItemType.radio_5_level⟩,
          ⟨"III-11", ItemType.radio_5_level⟩,
          ⟨"III-12", ItemType.radio_5_level_with_sub_check⟩,
          ⟨"III-13", ItemType.radio_5_level⟩,
          ⟨"III-14", ItemType.radio_5_level_with_sub_check⟩,
          ⟨"III-15", ItemType.radio_5_level_with_sub_check⟩ ] } ]

/-- The `evaluations` mapping `evaluator-categoryIndex-itemIndex → number`
(with JS default `|| 0`). -/
abbrev Evaluations := Evaluator → Nat → Nat → Int

/-- `getEvaluation`: reads `evaluations[key] || 0`. -/
def getEvaluation (evaluations : Evaluations) (evaluator : Evaluator)
    (categoryIndex itemIndex : Nat) : Int :=
  evaluations evaluator categoryIndex itemIndex

/-- `categories[categoryIndex]?.items[itemIndex]` as an optional lookup. -/
def itemAt (categoryIndex itemIndex : Nat) : Option ChecklistItem :=
  (categories.get? categoryIndex).bind fun c => c.items.get? itemIndex

/-- `getEvaluationScore`: the score transform.  Returns `0` for the
unanswered sentinel and for a missing item; `1 ↦ 2, _ ↦ 1` on
2-level-with-sub-check items; `6 - raw` otherwise. -/
def getEvaluationScore (evaluations : Evaluations) (evaluator : Evaluator)
    (categoryIndex itemIndex : Nat) : Int :=
  let rawScore := getEvaluation evaluations evaluator categoryIndex itemIndex
  if rawScore = 0 then 0
  else
    match itemAt categoryIndex itemIndex with
    | none => 0
    | some item =>
      if item.type = ItemType.radio_2_level_with_sub_check then
        if rawScore = 1 then 2 else 1
      else
        6 - rawScore

/-- JS `Math.round` (half up towards `+∞`), exact on `ℚ`. -/
def jsRound (q : ℚ) : Int :=
  ⌊q + 1/2⌋

/-- `calculateCategoryAverage`: maps the score transform over the items of
the category, keeps the positive (answered) scores, and returns their mean
rounded via `Math.round(x * 100) / 100`; `0` when nothing is answered. -/
def calculateCategoryAverage (evaluations : Evaluations) (categoryIndex : Nat)
    (evaluator : Evaluator) : ℚ :=
  let categoryItems := ((categories.get? categoryIndex).getD ⟨"", []⟩).items
  let scores := ((List.range categoryItems.length).map fun itemIndex =>
      getEvaluationScore evaluations evaluator categoryIndex itemIndex).filter
        fun score => decide (0 < score)
  if scores.length = 0 then 0
  else (jsRound (((scores.sum : ℚ) / (scores.length : ℚ)) * 100) : ℚ) / 100

/-- A sanity example: the transform on category 0, item 0 (a 5-level item). -/
example : getEvaluationScore (fun _ _ _ => 1) Evaluator.staff 0 0 = 5 := by
  decide

/-! ## C1: the score transform -/

/-- C1: `getEvaluationScore` maps the unanswered sentinel `0` to `0` for
every item; on a 2-level-with-sub-check item it maps raw `1` to `2` and raw
`2` to `1`; on every 5-level item (with or without sub-checks) it maps raw
`r ∈ [1,5]` to `6 - r`; and it is a pure, deterministic function of the raw
response and the (static) item position. -/
theorem C1_score_transform_spec :
    (∀ (evals : Evaluations) (ev : Evaluator) (c i : Nat),
        evals ev c i = 0 → getEvaluationScore evals ev c i = 0)
    ∧ (∀ (evals : Evaluations) (ev : Evaluator) (c i : Nat) (item : ChecklistItem),
        itemAt c i = some item →
        item.type = ItemType.radio_2_level_with_sub_check →
          (evals ev c i = 1 → getEvaluationScore evals ev c i = 2)
          ∧ (evals ev c i = 2 → getEvaluationScore evals ev c i = 1))
    ∧ (∀ (evals : Evaluations) (ev : Evaluator) (c i : Nat) (item : ChecklistItem) (r : Int),
        itemAt c i = some item →
        item.type ≠ ItemType.radio_2_level_with_sub_check →
        1 ≤ r → r ≤ 5 → evals ev c i = r →
          getEvaluationScore evals ev c i = 6 - r)
    ∧ (∀ (e₁ e₂ : Evaluations) (ev₁ ev₂ : Evaluator) (c i : Nat),
        e₁ ev₁ c i = e₂ ev₂ c i →
          getEvaluationScore e₁ ev₁ c i = getEvaluationScore e₂ ev₂ c i) := by
  refine ⟨?_, ?_, ?_, ?_⟩
  · intro evals ev c i h
    simp [getEvaluationScore, getEvaluation, h]
  · intro evals ev c i item hitem htype
    constructor
    · intro h
      simp [getEvaluationScore, getEvaluation, h, hitem, htype]
    · intro h
      simp [getEvaluationScore, getEvaluation, h, hitem, htype]
  · intro evals ev c i item r hitem htype h1 h5 hr
    have hne : r ≠ 0 := by omega
    simp [getEvaluationScore, getEvaluation, hr, hne, hitem, htype]
  · intro e₁ e₂ ev₁ ev₂ c i h
    simp [getEvaluationScore, getEvaluation, h]

/-- A concrete response mapping used to witness C1: staff answered the
2-level item `I-11` with raw `2` and the 5-level item `I-2` with raw `4`. -/
def c1WitnessEvals : Evaluations := fun _ c i =>
  if c = 0 ∧ i = 10 then 2 else if c = 0 ∧ i = 1 then 4 else 0

theorem C1_score_transform_spec_witness :
    getEvaluationScore c1WitnessEvals Evaluator.staff 0 10 = 1
    ∧ getEvaluationScore c1WitnessEvals Evaluator.staff 0 1 = 2
    ∧ getEvaluationScore c1WitnessEvals Evaluator.staff 1 0 = 0 := by
  refine ⟨?_, ?_, ?_⟩
  · exact (C1_score_transform_spec.2.1 c1WitnessEvals Evaluator.staff 0 10
      ⟨"I-11", ItemType.radio_2_level_with_sub_check⟩ (by decide) rfl).2 (by decide)
  · exact C1_score_transform_spec.2.2.1 c1WitnessEvals Evaluator.staff 0 1
      ⟨"I-2", ItemType.radio_5_level⟩ 4 (by decide) (by decide) (by decide)
      (by decide) (by decide)
  · exact C1_score_transform_spec.1 c1WitnessEvals Evaluator.staff 1 0 (by decide)

/-! ## Aggregation: the direct save path and the finalizeDraft path -/

/-- `totalScore` as computed in `saveEvaluationRecord`: a nested `reduce`
over all categories and items, summing `getEvaluationScore`. -/
def saveTotalScore (evals : Evaluations) (evaluatorType : Evaluator) : Int :=
  categories.enum.foldl
    (fun total p =>
      total + p.2.items.enum.foldl
        (fun catTotal q => catTotal + getEvaluationScore evals evaluatorType p.1 q.1) 0)
    0

/-- `categoryScores` as computed in `saveEvaluationRecord`: category name
mapped to `calculateCategoryAverage`. -/
def saveCategoryScores (evals : Evaluations) (evaluatorType : Evaluator) :
    List (String × ℚ) :=
  categories.enum.map fun p => (p.2.name, calculateCategoryAverage evals p.1 evaluatorType)

/-- The conversion block inlined (twice, identically) in `finalizeDraft`. -/
def convertedScoreOf (item : ChecklistItem) (rawScore : Int) : Int :=
  if item.type = ItemType.radio_2_level_with_sub_check then
    if rawScore = 1 then 2 else 1
  else
    6 - rawScore

/-- `totalScore` as recomputed in `finalizeDraft` from the draft's raw
responses: skips raw `0`, otherwise adds the converted score. -/
def finalizeTotalScore (evals : Evaluations) (evaluator : Evaluator) : Int :=
  categories.enum.foldl
    (fun total p =>
      total + p.2.items.enum.foldl
        (fun catTotal q =>
          if evals evaluator p.1 q.1 = 0 then catTotal
          else catTotal + convertedScoreOf q.2 (evals evaluator p.1 q.1))
        0)
    0

/-- One category's average as recomputed in `finalizeDraft`: accumulates
`(catTotal, catCount)` over items with raw response `> 0` and divides —
with no rounding. -/
def finalizeCategoryScore (evals : Evaluations) (evaluator : Evaluator)
    (categoryIndex : Nat) : ℚ :=
  let acc := ((categories.get? categoryIndex).getD ⟨"", []⟩).items.enum.foldl
    (fun (tc : Int × Nat) q =>
      if 0 < evals evaluator categoryIndex q.1 then
        (tc.1 + convertedScoreOf q.2 (evals evaluator categoryIndex q.1), tc.2 + 1)
      else tc)
    (0, 0)
  if 0 < acc.2 then (acc.1 : ℚ) / (acc.2 : ℚ) else 0

/-- `categoryScores` as recomputed in `finalizeDraft`. -/
def finalizeCategoryScores (evals : Evaluations) (evaluator : Evaluator) :
    List (String × ℚ) :=
  categories.enum.map fun p => (p.2.name, finalizeCategoryScore evals evaluator p.1)

/-- The declared option count of an item type (2-level scales have 2
options, 5-level scales 5). -/
def optionCount (t : ItemType) : Int :=
  if t = ItemType.radio_2_level_with_sub_check then 2 else 5

/-- Every stored raw response lies in the declared domain
`[0, optionCount]` of its item. -/
def inDomain (evals : Evaluations) : Prop :=
  ∀ (ev : Evaluator) (c i : Nat) (item : ChecklistItem), itemAt c i = some item →
    0 ≤ evals ev c i ∧ evals ev c i ≤ optionCount item.type

/-! ### Generic list lemmas -/

theorem foldl_add_shift {α : Type} (f : α → Int) (l : List α) :
    ∀ a : Int, l.foldl (fun acc x => acc + f x) a = a + (l.map f).sum := by
  induction l with
  | nil => intro a; simp
  | cons x xs ih => intro a; simp [ih, add_assoc]

theorem foldl_pair_count {α : Type} (p : α → Prop) [DecidablePred p] (f : α → Int)
    (l : List α) :
    ∀ (a : Int) (n : Nat),
      l.foldl (fun tc x => if p x then (tc.1 + f x, tc.2 + 1) else tc) (a, n)
        = (a + ((l.filter fun x => decide (p x)).map f).sum,
           n + (l.filter fun x => decide (p x)).length) := by
  induction l with
  | nil => intro a n; simp
  | cons x xs ih =>
    intro a n
    by_cases h : p x
    · simp only [List.foldl_cons, h, if_true, ih, List.filter_cons, decide_eq_true_eq,
        List.map_cons, List.sum_cons, List.length_cons, Prod.mk.injEq]
      exact ⟨by ring, by omega⟩
    · simp [h, ih]

theorem map_filter_pos_eq {α : Type} (f ψ : α → Int) (p : α → Prop) [DecidablePred p]
    (l : List α)
    (h1 : ∀ x ∈ l, 0 < f x ↔ p x)
    (h2 : ∀ x ∈ l, p x → f x = ψ x) :
    (l.map f).filter (fun s => decide (0 < s))
      = ((l.filter fun x => decide (p x)).map ψ) := by
  induction l with
  | nil => simp
  | cons x xs ih =>
    have hx1 := h1 x (List.mem_cons_self x xs)
    have hx2 := h2 x (List.mem_cons_self x xs)
    have ihx := ih (fun y hy => h1 y (List.mem_cons_of_mem x hy))
      (fun y hy => h2 y (List.mem_cons_of_mem x hy))
    by_cases h : p x
    · have hpos : 0 < f x := hx1.mpr h
      simp [h, hpos, ihx]
      rw [hx2 h]
    · have hpos : ¬ 0 < f x := fun hc => h (hx1.mp hc)
      simp [h, hpos, ihx]

/-! ### Bridging lemmas between the two computation paths -/

theorem itemAt_of_mem_enum {c : Nat} {cat : Category} {q : Nat × ChecklistItem}
    (hc : categories.get? c = some cat) (hq : q ∈ cat.items.enum) :
    itemAt c q.1 = some q.2 := by
  have h := List.mem_enum_iff_getElem?.mp hq
  simp only [itemAt, hc, Option.bind_some, List.get?_eq_getElem?]
  exact h

theorem getEvaluationScore_eq_of_itemAt (evals : Evaluations) (ev : Evaluator)
    {c i : Nat} {item : ChecklistItem} (h : itemAt c i = some item) :
    getEvaluationScore evals ev c i =
      if evals ev c i = 0 then 0 else convertedScoreOf item (evals ev c i) := by
  by_cases h0 : evals ev c i = 0
  · simp [getEvaluationScore, getEvaluation, h0]
  · simp [getEvaluationScore, getEvaluation, convertedScoreOf, h0, h]

theorem inner_finalize_eq_inner_save (evals : Evaluations) (ev : Evaluator)
    {c : Nat} {cat : Category} (hc : categories.get? c = some cat) :
    cat.items.enum.foldl
      (fun catTotal q =>
        if evals ev c q.1 = 0 then catTotal
        else catTotal + convertedScoreOf q.2 (evals ev c q.1)) 0
    = cat.items.enum.foldl
      (fun catTotal q => catTotal + getEvaluationScore evals ev c q.1) 0 := by
  apply List.foldl_ext
  intro a q hq
  rw [getEvaluationScore_eq_of_itemAt evals ev (itemAt_of_mem_enum hc hq)]
  by_cases h0 : evals ev c q.1 = 0 <;> simp [h0]

theorem categories_get?_of_mem_enum {p : Nat × Category} (hp : p ∈ categories.enum) :
    categories.get? p.1 = some p.2 := by
  have h := List.mem_enum_iff_getElem?.mp hp
  simpa [List.get?_eq_getElem?] using h

theorem finalizeTotalScore_eq_saveTotalScore (evals : Evaluations) (ev : Evaluator) :
    finalizeTotalScore evals ev = saveTotalScore evals ev := by
  unfold finalizeTotalScore saveTotalScore
  apply List.foldl_ext
  intro a p hp
  rw [inner_finalize_eq_inner_save evals ev (categories_get?_of_mem_enum hp)]

/-- Rounding to 2 decimal places as the source writes it:
`Math.round(x * 100) / 100`. -/
def roundTo2 (q : ℚ) : ℚ :=
  (jsRound (q * 100) : ℚ) / 100

theorem finalizeCategoryScore_eq_sum_div (evals : Evaluations) (ev : Evaluator)
    {c : Nat} {cat : Category} (hc : categories.get? c = some cat) :
    finalizeCategoryScore evals ev c =
      if 0 < (cat.items.enum.filter fun q => decide (0 < evals ev c q.1)).length then
        (((cat.items.enum.filter fun q => decide (0 < evals ev c q.1)).map
            fun q => convertedScoreOf q.2 (evals ev c q.1)).sum : ℚ)
          / ((cat.items.enum.filter fun q => decide (0 < evals ev c q.1)).length : ℚ)
      else 0 := by
  simp only [finalizeCategoryScore, hc, Option.getD_some]
  rw [foldl_pair_count (fun q => 0 < evals ev c q.1)
    (fun q => convertedScoreOf q.2 (evals ev c q.1)) cat.items.enum 0 0]
  simp

theorem calculateCategoryAverage_eq_sum_div (evals : Evaluations) (ev : Evaluator)
    {c : Nat} {cat : Category} (hc : categories.get? c = some cat)
    (hdom : inDomain evals) :
    calculateCategoryAverage evals c ev =
      if (cat.items.enum.filter fun q => decide (0 < evals ev c q.1)).length = 0 then 0
      else
        (jsRound ((((cat.items.enum.filter fun q => decide (0 < evals ev c q.1)).map
              fun q => convertedScoreOf q.2 (evals ev c q.1)).sum : ℚ)
            / ((cat.items.enum.filter fun q => decide (0 < evals ev c q.1)).length : ℚ)
            * 100) : ℚ) / 100 := by
  have hrange : (List.range cat.items.length).map
      (fun itemIndex => getEvaluationScore evals ev c itemIndex)
      = cat.items.enum.map fun q => getEvaluationScore evals ev c q.1 := by
    rw [← List.enum_map_fst cat.items, List.map_map]
    rfl
  have hmap : cat.items.enum.map (fun q => getEvaluationScore evals ev c q.1)
      = cat.items.enum.map fun q =>
          if evals ev c q.1 = 0 then 0 else convertedScoreOf q.2 (evals ev c q.1) := by
    apply List.map_congr_left
    intro q hq
    exact getEvaluationScore_eq_of_itemAt evals ev (itemAt_of_mem_enum hc hq)
  have hfilter : ((cat.items.enum.map fun q =>
        if evals ev c q.1 = 0 then 0
        else convertedScoreOf q.2 (evals ev c q.1)).filter fun s => decide (0 < s))
      = ((cat.items.enum.filter fun q => decide (0 < evals ev c q.1)).map
          fun q => convertedScoreOf q.2 (evals ev c q.1)) := by
    apply map_filter_pos_eq
    · intro q hq
      have hdq := hdom ev c q.1 q.2 (itemAt_of_mem_enum hc hq)
      by_cases h0 : evals ev c q.1 = 0
      · simp [h0]
      · have hconv : 0 < convertedScoreOf q.2 (evals ev c q.1) := by
          unfold convertedScoreOf optionCount at *
          by_cases ht : q.2.type = ItemType.radio_2_level_with_sub_check
          · simp only [ht, if_true]
            by_cases h1 : evals ev c q.1 = 1 <;> simp [h1]
          · simp only [ht, if_false] at hdq ⊢
            omega
        simp only [h0, if_false]
        constructor
        · intro _; omega
        · intro _; exact hconv
    · intro q hq hpos
      have h0 : ¬ evals ev c q.1 = 0 := by omega
      simp [h0]
  simp only [calculateCategoryAverage, hc, Option.getD_some, hrange, hmap, hfilter,
    List.length_map]

theorem calculateCategoryAverage_eq_roundTo2_finalize (evals : Evaluations)
    (ev : Evaluator) {c : Nat} {cat : Category} (hc : categories.get? c = some cat)
    (hdom : inDomain evals) :
    calculateCategoryAverage evals c ev = roundTo2 (finalizeCategoryScore evals ev c) := by
  rw [calculateCategoryAverage_eq_sum_div evals ev hc hdom,
    finalizeCategoryScore_eq_sum_div evals ev hc]
  by_cases hlen : (cat.items.enum.filter fun q => decide (0 < evals ev c q.1)).length = 0
  · have : ¬ (0 < (cat.items.enum.filter fun q => decide (0 < evals ev c q.1)).length) := by
      omega
    simp only [hlen, if_true, this, if_false]
    norm_num [roundTo2, jsRound]
  · have hpos : 0 < (cat.items.enum.filter fun q => decide (0 < evals ev c q.1)).length := by
      omega
    simp only [hlen, if_false, hpos, if_true, roundTo2]

/-! ### Evaluation helpers for concrete response mappings -/

theorem getEvaluationScore_congr {e₁ e₂ : Evaluations} {ev₁ ev₂ : Evaluator} {c i : Nat}
    (h : e₁ ev₁ c i = e₂ ev₂ c i) :
    getEvaluationScore e₁ ev₁ c i = getEvaluationScore e₂ ev₂ c i := by
  simp [getEvaluationScore, getEvaluation, h]

theorem calculateCategoryAverage_eval (evals : Evaluations) (ev : Evaluator) (c : Nat)
    (L : List Int)
    (hL : (((List.range (((categories.get? c).getD ⟨"", []⟩).items.length)).map
        fun itemIndex => getEvaluationScore evals ev c itemIndex).filter
          fun score => decide (0 < score)) = L) :
    calculateCategoryAverage evals c ev =
      if L.length = 0 then 0
      else (jsRound (((L.sum : ℚ) / (L.length : ℚ)) * 100) : ℚ) / 100 := by
  simp only [calculateCategoryAverage, hL]

theorem finalizeCategoryScore_eval (evals : Evaluations) (ev : Evaluator) (c : Nat)
    (s : Int) (n : Nat)
    (hacc : (((categories.get? c).getD ⟨"", []⟩).items.enum.foldl
        (fun (tc : Int × Nat) q =>
          if 0 < evals ev c q.1 then
            (tc.1 + convertedScoreOf q.2 (evals ev c q.1), tc.2 + 1)
          else tc) (0, 0)) = (s, n)) :
    finalizeCategoryScore evals ev c = if 0 < n then (s : ℚ) / (n : ℚ) else 0 := by
  simp only [finalizeCategoryScore, hacc]

/-- The end-to-end scenario of the spec: staff answers category I item 1
with raw 1 and item 2 with raw 3, everything else unanswered. -/
def scenarioEvals : Evaluations := fun ev c i =>
  if ev = Evaluator.staff ∧ c = 0 ∧ i = 0 then 1
  else if ev = Evaluator.staff ∧ c = 0 ∧ i = 1 then 3
  else 0

theorem optionCount_nonneg (t : ItemType) : (0 : Int) ≤ optionCount t := by
  unfold optionCount
  split <;> norm_num

theorem scenarioEvals_inDomain : inDomain scenarioEvals := by
  intro ev c i item hitem
  by_cases h1 : ev = Evaluator.staff ∧ c = 0 ∧ i = 0
  · obtain ⟨he, hc0, hi0⟩ := h1
    subst he; subst hc0; subst hi0
    have hit : item = ⟨"I-1", ItemType.radio_5_level⟩ := by
      have h : itemAt 0 0 = some ⟨"I-1", ItemType.radio_5_level⟩ := rfl
      rw [h, Option.some.injEq] at hitem
      exact hitem.symm
    subst hit
    exact ⟨by decide, by decide⟩
  · by_cases h2 : ev = Evaluator.staff ∧ c = 0 ∧ i = 1
    · obtain ⟨he, hc0, hi1⟩ := h2
      subst he; subst hc0; subst hi1
      have hit : item = ⟨"I-2", ItemType.radio_5_level⟩ := by
        have h : itemAt 0 1 = some ⟨"I-2", ItemType.radio_5_level⟩ := rfl
        rw [h, Option.some.injEq] at hitem
        exact hitem.symm
      subst hit
      exact ⟨by decide, by decide⟩
    · have h0 : scenarioEvals ev c i = 0 := by
        simp [scenarioEvals, h1, h2]
      rw [h0]
      exact ⟨le_refl 0, optionCount_nonneg item.type⟩

/-! ## C2: finalizeDraft versus the direct save path -/

/-- Three staff answers in category I with raws 1, 2, 2 (normalized 5, 4,
4; exact mean 13/3). -/
def c2Evals : Evaluations := fun ev c i =>
  if ev = Evaluator.staff ∧ c = 0 ∧ i < 3 then (if i = 0 then 1 else 2) else 0

/-- C2 counterexample: on the responses `c2Evals` (normalized scores 5, 4,
4 in category I), `finalizeDraft` stores the unrounded mean `13/3` for the
category while the direct save path (`calculateCategoryAverage`) stores
`4.33`; the two paths are not identical, contrary to the claim that the
rounding to 2 decimal places is included in both. -/
theorem C2_rounding_counterexample :
    finalizeCategoryScore c2Evals Evaluator.staff 0 = 13/3
    ∧ calculateCategoryAverage c2Evals 0 Evaluator.staff = 433/100
    ∧ finalizeCategoryScore c2Evals Evaluator.staff 0
        ≠ calculateCategoryAverage c2Evals 0 Evaluator.staff := by
  have hfin : finalizeCategoryScore c2Evals Evaluator.staff 0 = 13/3 := by
    rw [finalizeCategoryScore_eval c2Evals Evaluator.staff 0 13 3 (by decide)]
    norm_num
  have hdir : calculateCategoryAverage c2Evals 0 Evaluator.staff = 433/100 := by
    rw [calculateCategoryAverage_eval c2Evals Evaluator.staff 0 [5, 4, 4] (by decide)]
    norm_num [jsRound]
  refine ⟨hfin, hdir, ?_⟩
  rw [hfin, hdir]
  norm_num

/-- C2 (amended): `finalizeDraft` recomputes `totalScore` and
`categoryScores` purely from the draft's raw responses; its `totalScore`
coincides with the direct save path's for every raw-response mapping, and
for in-domain responses each of its category scores is the unrounded mean
whose rounding to 2 decimal places is exactly what the direct path stores —
the rounding itself is applied only on the direct path, not by
`finalizeDraft`. -/
theorem C2_finalize_recomputes_amended (evals : Evaluations) (ev : Evaluator)
    (hdom : inDomain evals) :
    finalizeTotalScore evals ev = saveTotalScore evals ev
    ∧ ∀ c, c < categories.length →
        calculateCategoryAverage evals c ev = roundTo2 (finalizeCategoryScore evals ev c) := by
  constructor
  · exact finalizeTotalScore_eq_saveTotalScore evals ev
  · intro c hclen
    exact calculateCategoryAverage_eq_roundTo2_finalize evals ev
      (List.get?_eq_get hclen) hdom

theorem C2_finalize_recomputes_amended_witness :
    calculateCategoryAverage scenarioEvals 0 Evaluator.staff
      = roundTo2 (finalizeCategoryScore scenarioEvals Evaluator.staff 0) :=
  (C2_finalize_recomputes_amended scenarioEvals Evaluator.staff
    scenarioEvals_inDomain).2 0 (by norm_num [categories])

/-! ## C3: calculateCategoryAverage -/

/-- Modelled from the words of the claim, for comparison with the code's
`calculateCategoryAverage`: apply the score transform to each item of the
category, discard the items whose normalized score is 0 (unanswered), and
return the arithmetic mean of the remaining scores rounded to 2 decimal
places; return 0 when no item of the category is answered. -/
def specCategoryAverage (evals : Evaluations) (ev : Evaluator) (c : Nat) : ℚ :=
  let scores := (((categories.get? c).getD ⟨"", []⟩).items.enum.map
      fun q => getEvaluationScore evals ev c q.1).filter fun s => decide (¬ s = 0)
  if scores.length = 0 then 0
  else roundTo2 ((scores.sum : ℚ) / (scores.length : ℚ))

/-- C3: on in-domain responses, `calculateCategoryAverage` computes exactly
the claim's description (transform every item, drop normalized-0 items,
average the rest rounded to 2 decimals, 0 when nothing is answered), and
its value depends only on the raw-response mapping restricted to the
category and evaluator (hence is order-independent and stable under
recomputation). -/
theorem C3_category_average_spec (evals : Evaluations) (ev : Evaluator) (c : Nat)
    (hdom : inDomain evals) :
    calculateCategoryAverage evals c ev = specCategoryAverage evals ev c
    ∧ ((∀ i, evals ev c i = 0) → calculateCategoryAverage evals c ev = 0)
    ∧ (∀ evals₂ : Evaluations, (∀ i, evals ev c i = evals₂ ev c i) →
        calculateCategoryAverage evals c ev = calculateCategoryAverage evals₂ c ev) := by
  refine ⟨?_, ?_, ?_⟩
  · cases hc : categories.get? c with
    | none =>
      have hc' : categories[c]? = none := by
        rw [← List.get?_eq_getElem?]
        exact hc
      simp [calculateCategoryAverage, specCategoryAverage, hc, hc', roundTo2]
    | some cat =>
      have hrange : (List.range cat.items.length).map
          (fun itemIndex => getEvaluationScore evals ev c itemIndex)
          = cat.items.enum.map fun q => getEvaluationScore evals ev c q.1 := by
        rw [← List.enum_map_fst cat.items, List.map_map]
        rfl
      have hfilter : ((cat.items.enum.map fun q =>
            getEvaluationScore evals ev c q.1).filter fun s => decide (0 < s))
          = ((cat.items.enum.map fun q =>
            getEvaluationScore evals ev c q.1).filter fun s => decide (¬ s = 0)) := by
        apply List.filter_congr
        intro s hs
        obtain ⟨q, hq, hsq⟩ := List.mem_map.mp hs
        have hscore := getEvaluationScore_eq_of_itemAt evals ev (itemAt_of_mem_enum hc hq)
        have hdq := hdom ev c q.1 q.2 (itemAt_of_mem_enum hc hq)
        rw [← hsq, hscore]
        by_cases h0 : evals ev c q.1 = 0
        · simp [h0]
        · have hconv : 0 < convertedScoreOf q.2 (evals ev c q.1) := by
            unfold convertedScoreOf optionCount at *
            by_cases ht : q.2.type = ItemType.radio_2_level_with_sub_check
            · simp only [ht, if_true]
              by_cases h1 : evals ev c q.1 = 1 <;> simp [h1]
            · simp only [ht, if_false] at hdq ⊢
              omega
          simp only [h0, if_false]
          have hne : ¬ convertedScoreOf q.2 (evals ev c q.1) = 0 := by omega
          simp [hconv, hne]
      simp only [calculateCategoryAverage, specCategoryAverage, hc, Option.getD_some,
        hrange, hfilter, roundTo2]
  · intro h0
    have hnil : (((List.range (((categories.get? c).getD ⟨"", []⟩).items.length)).map
        fun itemIndex => getEvaluationScore evals ev c itemIndex).filter
          fun score => decide (0 < score)) = [] := by
      rw [List.filter_eq_nil_iff]
      intro a ha
      obtain ⟨i, _, hia⟩ := List.mem_map.mp ha
      have : getEvaluationScore evals ev c i = 0 := by
        simp [getEvaluationScore, getEvaluation, h0 i]
      rw [← hia, this]
      decide
    rw [calculateCategoryAverage_eval evals ev c [] hnil]
    simp
  · intro evals₂ hagree
    have hmap : ∀ (n : Nat), (List.range n).map
          (fun itemIndex => getEvaluationScore evals ev c itemIndex)
        = (List.range n).map
          (fun itemIndex => getEvaluationScore evals₂ ev c itemIndex) := by
      intro n
      apply List.map_congr_left
      intro i _
      exact getEvaluationScore_congr (hagree i)
    simp only [calculateCategoryAverage, hmap]

theorem C3_category_average_spec_witness :
    calculateCategoryAverage scenarioEvals 0 Evaluator.staff
      = specCategoryAverage scenarioEvals Evaluator.staff 0 :=
  (C3_category_average_spec scenarioEvals Evaluator.staff 0 scenarioEvals_inDomain).1

/-! ## C4: totalScore as a plain sum, and the end-to-end scenario -/

/-- C4: for every evaluator the direct path's `totalScore` is the plain sum
of the normalized scores of all items of all three categories (unanswered
items contribute the transform's 0); in the concrete scenario where staff
answers only category I item 1 with raw 1 (normalized 5) and item 2 with
raw 3 (normalized 3), the category I average is 4.0 and the total score
is 8. -/
theorem C4_total_score_spec :
    (∀ (evals : Evaluations) (ev : Evaluator),
        saveTotalScore evals ev
          = (categories.enum.map fun p =>
              (p.2.items.enum.map fun q => getEvaluationScore evals ev p.1 q.1).sum).sum)
    ∧ (∀ (evals : Evaluations) (ev : Evaluator) (c i : Nat),
        evals ev c i = 0 → getEvaluationScore evals ev c i = 0)
    ∧ calculateCategoryAverage scenarioEvals 0 Evaluator.staff = 4
    ∧ saveTotalScore scenarioEvals Evaluator.staff = 8 := by
  refine ⟨?_, ?_, ?_, ?_⟩
  · intro evals ev
    unfold saveTotalScore
    rw [foldl_add_shift (fun p : Nat × Category =>
      p.2.items.enum.foldl
        (fun catTotal q => catTotal + getEvaluationScore evals ev p.1 q.1) 0)
      categories.enum 0, zero_add]
    congr 1
    apply List.map_congr_left
    intro p _
    rw [foldl_add_shift (fun q : Nat × ChecklistItem =>
      getEvaluationScore evals ev p.1 q.1) p.2.items.enum 0, zero_add]
  · intro evals ev c i h
    simp [getEvaluationScore, getEvaluation, h]
  · rw [calculateCategoryAverage_eval scenarioEvals Evaluator.staff 0 [5, 3] (by decide)]
    norm_num [jsRound]
  · decide

theorem C4_total_score_spec_witness :
    getEvaluationScore scenarioEvals Evaluator.staff 1 0 = 0 :=
  C4_total_score_spec.2.1 scenarioEvals Evaluator.staff 1 0 (by decide)

/-! ## The persistent store: entities and DataService operations -/

/-- The `detailChecks` mapping keyed
`evaluator-categoryIndex-itemIndex-sub-subIndex` (default `false`). -/
abbrev SubChecks := Evaluator → Nat → Nat → Nat → Bool

/-- The per-item comment mapping (default empty string). -/
abbrev Comments := Evaluator → Nat → Nat → String

structure SupportTarget where
  id : String
  userId : String
  name : String
  birthdate : String
  email : String
  gender : String
  disability : String
  supportStartDate : String
  notes : String
  createdAt : String
  updatedAt : String

structure EvaluationRecord where
  id : String
  targetId : String
  targetName : String
  evaluationDate : String
  evaluator : Evaluator
  evaluations : Evaluations
  subChecks : SubChecks
  comments : Comments
  totalScore : Int
  categoryScores : List (String × ℚ)
  createdAt : String
  updatedAt : String

/-- `Omit<EvaluationRecord, 'id' | 'createdAt' | 'updatedAt'>`: the payload
passed to `DataService.saveEvaluationRecord`. -/
structure EvaluationRecordInput where
  targetId : String
  targetName : String
  evaluationDate : String
  evaluator : Evaluator
  evaluations : Evaluations
  subChecks : SubChecks
  comments : Comments
  totalScore : Int
  categoryScores : List (String × ℚ)

structure EvaluationDraft where
  id : String
  targetId : String
  targetName : String
  evaluationDate : String
  evaluator : Evaluator
  evaluations : Evaluations
  subChecks : SubChecks
  comments : Comments
  completionRate : Int
  lastSaved : String
  createdAt : String
  updatedAt : String

/-- The draft payload passed to `DataService.saveEvaluationDraft` (id and
the three timestamps are set by the service). -/
structure EvaluationDraftInput where
  targetId : String
  targetName : String
  evaluationDate : String
  evaluator : Evaluator
  evaluations : Evaluations
  subChecks : SubChecks
  comments : Comments
  completionRate : Int

structure SupportGoal where
  id : String
  targetId : String
  targetName : String
  goalDate : String
  selectedGoal : String
  actionPlan : String
  successCriteria : String
  supportNeeded : String
  createdAt : String
  updatedAt : String

/-- The record constructed by `DataService.saveEvaluationRecord`
(`{...record, id: eval_..., createdAt: now, updatedAt: now}`). -/
def newRecordFrom (record : EvaluationRecordInput) (newId now : String) :
    EvaluationRecord :=
  { id := newId, targetId := record.targetId, targetName := record.targetName,
    evaluationDate := record.evaluationDate, evaluator := record.evaluator,
    evaluations := record.evaluations, subChecks := record.subChecks,
    comments := record.comments, totalScore := record.totalScore,
    categoryScores := record.categoryScores, createdAt := now, updatedAt := now }

/-- `DataService.saveEvaluationRecord`: unconditionally `push`es a new
record (no composite-key lookup). -/
def DataService.saveEvaluationRecord (records : List EvaluationRecord)
    (record : EvaluationRecordInput) (newId now : String) : List EvaluationRecord :=
  records ++ [newRecordFrom record newId now]

/-- The composite-key test of `saveEvaluationDraft`'s `findIndex` (and of
`findEvaluationDraft`). -/
def matchesDraftKey (targetId evaluationDate : String) (evaluator : Evaluator)
    (d : EvaluationDraft) : Bool :=
  decide (d.targetId = targetId ∧ d.evaluationDate = evaluationDate
    ∧ d.evaluator = evaluator)

/-- The in-place update branch of `saveEvaluationDraft`
(`{...existing, ...draft, updatedAt: now, lastSaved: now}`: id and
createdAt of the stored draft are kept, the payload fields are replaced). -/
def overwriteDraft (existing : EvaluationDraft) (draft : EvaluationDraftInput)
    (now : String) : EvaluationDraft :=
  { id := existing.id, targetId := draft.targetId, targetName := draft.targetName,
    evaluationDate := draft.evaluationDate, evaluator := draft.evaluator,
    evaluations := draft.evaluations, subChecks := draft.subChecks,
    comments := draft.comments, completionRate := draft.completionRate,
    lastSaved := now, createdAt := existing.createdAt, updatedAt := now }

/-- The fresh-draft branch of `saveEvaluationDraft`. -/
def newDraftFrom (draft : EvaluationDraftInput) (newId now : String) :
    EvaluationDraft :=
  { id := newId, targetId := draft.targetId, targetName := draft.targetName,
    evaluationDate := draft.evaluationDate, evaluator := draft.evaluator,
    evaluations := draft.evaluations, subChecks := draft.subChecks,
    comments := draft.comments, completionRate := draft.completionRate,
    lastSaved := now, createdAt := now, updatedAt := now }

/-- `DataService.saveEvaluationDraft`: upsert by the
`(targetId, evaluationDate, evaluator)` key — `findIndex` followed by an
in-place update of the first stored draft whose key matches, or a `push` of
a fresh draft when none does. -/
def DataService.saveEvaluationDraft (draft : EvaluationDraftInput)
    (newId now : String) : List EvaluationDraft → List EvaluationDraft
  | [] => [newDraftFrom draft newId now]
  | d :: rest =>
    if matchesDraftKey draft.targetId draft.evaluationDate draft.evaluator d then
      overwriteDraft d draft now :: rest
    else
      d :: DataService.saveEvaluationDraft draft newId now rest

/-- `DataService.loadEvaluationDraft`: `find`-by-id (`|| null`). -/
def DataService.loadEvaluationDraft (drafts : List EvaluationDraft)
    (draftId : String) : Option EvaluationDraft :=
  drafts.find? fun d => decide (d.id = draftId)

/-- `DataService.deleteEvaluationDraft`: filter out the id; report `false`
(and write nothing) when nothing was removed. -/
def DataService.deleteEvaluationDraft (drafts : List EvaluationDraft)
    (draftId : String) : Bool × List EvaluationDraft :=
  let filteredDrafts := drafts.filter fun d => decide (¬ d.id = draftId)
  if filteredDrafts.length = drafts.length then (false, drafts)
  else (true, filteredDrafts)

/-- The two collections touched by `finalizeDraft`. -/
structure EvaluationStore where
  evaluationRecords : List EvaluationRecord
  evaluationDrafts : List EvaluationDraft

/-- `finalizeDraft`: load the draft by id (alert and no state change when it
does not exist); recompute `totalScore` and `categoryScores` from the
draft's raw responses; save the record; delete the draft. -/
def finalizeDraft (store : EvaluationStore) (draftId newId now : String) :
    EvaluationStore :=
  match DataService.loadEvaluationDraft store.evaluationDrafts draftId with
  | none => store
  | some draft =>
    let evaluationRecord : EvaluationRecordInput :=
      { targetId := draft.targetId, targetName := draft.targetName,
        evaluationDate := draft.evaluationDate, evaluator := draft.evaluator,
        evaluations := draft.evaluations, subChecks := draft.subChecks,
        comments := draft.comments,
        totalScore := finalizeTotalScore draft.evaluations draft.evaluator,
        categoryScores := finalizeCategoryScores draft.evaluations draft.evaluator }
    { evaluationRecords :=
        DataService.saveEvaluationRecord store.evaluationRecords evaluationRecord
          newId now,
      evaluationDrafts :=
        (DataService.deleteEvaluationDraft store.evaluationDrafts draftId).2 }

/-- `DataService.deleteEvaluationRecordsByTarget`: keep only records of
other targets. -/
def DataService.deleteEvaluationRecordsByTarget (records : List EvaluationRecord)
    (targetId : String) : List EvaluationRecord :=
  records.filter fun r => decide (¬ r.targetId = targetId)

/-- All four localStorage collections. -/
structure AppStore where
  supportTargets : List SupportTarget
  evaluationRecords : List EvaluationRecord
  evaluationDrafts : List EvaluationDraft
  supportGoals : List SupportGoal

/-- `DataService.deleteSupportTarget`: filter the target out; when nothing
was removed return `false` without writing; otherwise persist the filtered
targets and cascade-delete the target's evaluation records (drafts and
goals are not touched). -/
def DataService.deleteSupportTarget (store : AppStore) (id : String) :
    Bool × AppStore :=
  let filteredTargets := store.supportTargets.filter fun t => decide (¬ t.id = id)
  if filteredTargets.length = store.supportTargets.length then (false, store)
  else
    (true,
      { store with
        supportTargets := filteredTargets,
        evaluationRecords :=
          DataService.deleteEvaluationRecordsByTarget store.evaluationRecords id })

/-- `calculateCompletionRate`: `Math.round((completedItems / totalItems) * 100)`,
where `completedItems` counts the active evaluator's positive responses over
the checklist's item positions (the in-memory `evaluations` object holds
keys only for such positions) and `totalItems` sums the category sizes. -/
def calculateCompletionRate (evals : Evaluations) (activeEvaluator : Evaluator) : Int :=
  let totalItems : Nat :=
    categories.foldl (fun total category => total + category.items.length) 0
  let completedItems : Nat :=
    (categories.enum.map fun p =>
      ((List.range p.2.items.length).filter fun i =>
        decide (0 < evals activeEvaluator p.1 i)).length).sum
  jsRound (((completedItems : ℚ) / (totalItems : ℚ)) * 100)

/-- The in-memory evaluation-session state feeding `saveDraft`. -/
structure SessionState where
  selectedTargetId : String
  selectedTargetName : String
  currentDate : String
  activeEvaluator : Evaluator
  evaluations : Evaluations
  subChecks : SubChecks
  comments : Comments

/-- The `draftData` payload built by `saveDraft`: the session's responses
with the freshly computed `completionRate`. -/
def saveDraftInput (session : SessionState) : EvaluationDraftInput :=
  { targetId := session.selectedTargetId, targetName := session.selectedTargetName,
    evaluationDate := session.currentDate, evaluator := session.activeEvaluator,
    evaluations := session.evaluations, subChecks := session.subChecks,
    comments := session.comments,
    completionRate := calculateCompletionRate session.evaluations session.activeEvaluator }

/-- `saveDraft`: persists the session's payload through the draft upsert. -/
def saveDraft (session : SessionState) (drafts : List EvaluationDraft)
    (newId now : String) : List EvaluationDraft :=
  DataService.saveEvaluationDraft (saveDraftInput session) newId now drafts

/-! ## C5: the draft upsert -/

theorem saveEvaluationDraft_of_no_match (draft : EvaluationDraftInput)
    (newId now : String) :
    ∀ drafts : List EvaluationDraft,
      (∀ d ∈ drafts,
        matchesDraftKey draft.targetId draft.evaluationDate draft.evaluator d = false) →
      DataService.saveEvaluationDraft draft newId now drafts
        = drafts ++ [newDraftFrom draft newId now] := by
  intro drafts
  induction drafts with
  | nil => intro _; rfl
  | cons d rest ih =>
    intro h
    have hd := h d (List.mem_cons_self d rest)
    simp only [DataService.saveEvaluationDraft, hd, Bool.false_eq_true, if_false,
      List.cons_append, List.cons.injEq, true_and]
    exact ih fun x hx => h x (List.mem_cons_of_mem d hx)

theorem saveEvaluationDraft_of_first_match (draft : EvaluationDraftInput)
    (newId now : String) :
    ∀ (pre : List EvaluationDraft) (d : EvaluationDraft) (post : List EvaluationDraft),
      (∀ x ∈ pre,
        matchesDraftKey draft.targetId draft.evaluationDate draft.evaluator x = false) →
      matchesDraftKey draft.targetId draft.evaluationDate draft.evaluator d = true →
      DataService.saveEvaluationDraft draft newId now (pre ++ d :: post)
        = pre ++ overwriteDraft d draft now :: post := by
  intro pre
  induction pre with
  | nil =>
    intro d post _ hd
    simp [DataService.saveEvaluationDraft, hd]
  | cons x xs ih =>
    intro d post hpre hd
    have hx := hpre x (List.mem_cons_self x xs)
    simp only [List.cons_append, DataService.saveEvaluationDraft, hx,
      Bool.false_eq_true, if_false, List.cons.injEq, true_and]
    exact ih d post (fun y hy => hpre y (List.mem_cons_of_mem x hy)) hd

theorem saveEvaluationDraft_filter_length (draft : EvaluationDraftInput)
    (newId now t e : String) (v : Evaluator) :
    ∀ drafts : List EvaluationDraft,
      ((DataService.saveEvaluationDraft draft newId now drafts).filter
          (matchesDraftKey t e v)).length
        = if draft.targetId = t ∧ draft.evaluationDate = e ∧ draft.evaluator = v then
            max (drafts.filter (matchesDraftKey t e v)).length 1
          else (drafts.filter (matchesDraftKey t e v)).length := by
  intro drafts
  induction drafts with
  | nil =>
    by_cases hk : draft.targetId = t ∧ draft.evaluationDate = e ∧ draft.evaluator = v
    · have hmn : matchesDraftKey t e v (newDraftFrom draft newId now) = true := by
        simp only [matchesDraftKey, decide_eq_true_eq]
        exact ⟨hk.1, hk.2.1, hk.2.2⟩
      simp [DataService.saveEvaluationDraft, List.filter_cons, hmn, hk]
    · have hmn : matchesDraftKey t e v (newDraftFrom draft newId now) = false := by
        simp only [matchesDraftKey, decide_eq_false_iff_not]
        intro hcon
        exact hk ⟨hcon.1, hcon.2.1, hcon.2.2⟩
      simp [DataService.saveEvaluationDraft, List.filter_cons, hmn, hk]
  | cons d rest ih =>
    cases hd : matchesDraftKey draft.targetId draft.evaluationDate draft.evaluator d with
    | true =>
      have hdkey : d.targetId = draft.targetId ∧ d.evaluationDate = draft.evaluationDate
          ∧ d.evaluator = draft.evaluator := by
        simpa only [matchesDraftKey, decide_eq_true_eq] using hd
      by_cases hk : draft.targetId = t ∧ draft.evaluationDate = e ∧ draft.evaluator = v
      · have hmo : matchesDraftKey t e v (overwriteDraft d draft now) = true := by
          simp only [matchesDraftKey, decide_eq_true_eq]
          exact ⟨hk.1, hk.2.1, hk.2.2⟩
        have hmd : matchesDraftKey t e v d = true := by
          simp only [matchesDraftKey, decide_eq_true_eq]
          exact ⟨hdkey.1.trans hk.1, hdkey.2.1.trans hk.2.1, hdkey.2.2.trans hk.2.2⟩
        simp only [DataService.saveEvaluationDraft, hd, if_true, List.filter_cons,
          hmo, hmd, List.length_cons]
        rw [if_pos hk]
        omega
      · have hmo : matchesDraftKey t e v (overwriteDraft d draft now) = false := by
          simp only [matchesDraftKey, decide_eq_false_iff_not]
          intro hcon
          exact hk ⟨hcon.1, hcon.2.1, hcon.2.2⟩
        have hmd : matchesDraftKey t e v d = false := by
          simp only [matchesDraftKey, decide_eq_false_iff_not]
          intro hcon
          exact hk ⟨hdkey.1.symm.trans hcon.1, hdkey.2.1.symm.trans hcon.2.1,
            hdkey.2.2.symm.trans hcon.2.2⟩
        simp only [DataService.saveEvaluationDraft, hd, if_true, List.filter_cons,
          hmo, hmd, Bool.false_eq_true, if_false]
        rw [if_neg hk]
    | false =>
      cases hmd : matchesDraftKey t e v d with
      | true =>
        have hdkey : d.targetId = t ∧ d.evaluationDate = e ∧ d.evaluator = v := by
          simpa only [matchesDraftKey, decide_eq_true_eq] using hmd
        by_cases hk : draft.targetId = t ∧ draft.evaluationDate = e ∧ draft.evaluator = v
        · exfalso
          have : matchesDraftKey draft.targetId draft.evaluationDate draft.evaluator d
              = true := by
            simp only [matchesDraftKey, decide_eq_true_eq]
            exact ⟨hdkey.1.trans hk.1.symm, hdkey.2.1.trans hk.2.1.symm,
              hdkey.2.2.trans hk.2.2.symm⟩
          rw [this] at hd
          cases hd
        · simp only [DataService.saveEvaluationDraft, hd, Bool.false_eq_true, if_false,
            List.filter_cons, hmd, if_true, List.length_cons, ih]
          simp only [if_neg hk]
      | false =>
        simp only [DataService.saveEvaluationDraft, hd, Bool.false_eq_true, if_false,
          List.filter_cons, hmd, ih]

theorem saveEvaluationDraft_unique_match (draft : EvaluationDraftInput)
    (newId now : String) :
    ∀ drafts : List EvaluationDraft,
      (drafts.filter (matchesDraftKey draft.targetId draft.evaluationDate
        draft.evaluator)).length ≤ 1 →
      ∀ d' ∈ DataService.saveEvaluationDraft draft newId now drafts,
        matchesDraftKey draft.targetId draft.evaluationDate draft.evaluator d' = true →
        d'.evaluations = draft.evaluations ∧ d'.subChecks = draft.subChecks
          ∧ d'.comments = draft.comments ∧ d'.completionRate = draft.completionRate
          ∧ d'.lastSaved = now := by
  intro drafts
  induction drafts with
  | nil =>
    intro _ d' hd' _
    have : d' = newDraftFrom draft newId now := by
      simpa [DataService.saveEvaluationDraft] using hd'
    subst this
    exact ⟨rfl, rfl, rfl, rfl, rfl⟩
  | cons d rest ih =>
    intro hcount d' hd' hm
    cases hd : matchesDraftKey draft.targetId draft.evaluationDate draft.evaluator d with
    | true =>
      simp only [DataService.saveEvaluationDraft, hd, if_true] at hd'
      rcases List.mem_cons.mp hd' with h | h
      · subst h
        exact ⟨rfl, rfl, rfl, rfl, rfl⟩
      · exfalso
        have hlen : (rest.filter (matchesDraftKey draft.targetId draft.evaluationDate
            draft.evaluator)).length = 0 := by
          simp only [List.filter_cons, hd, if_true, List.length_cons] at hcount
          omega
        have hnone := List.filter_eq_nil_iff.mp (List.length_eq_zero.mp hlen)
        have := hnone d' h
        rw [hm] at this
        exact this rfl
    | false =>
      simp only [DataService.saveEvaluationDraft, hd, Bool.false_eq_true, if_false] at hd'
      rcases List.mem_cons.mp hd' with h | h
      · subst h
        rw [hm] at hd
        cases hd
      · apply ih ?_ d' h hm
        simp only [List.filter_cons, hd, Bool.false_eq_true, if_false] at hcount
        exact hcount

/-- C5: the draft upsert keeps at most one draft per
`(targetId, evaluationDate, evaluator)` key: a save with a fresh key appends
a new draft with the new id; a save whose key already has a stored draft
overwrites that draft in place, keeping its id and createdAt and replacing
the payload while advancing lastSaved/updatedAt; and two successive saves
for the same key leave exactly one draft for that key, holding the second
save's data. -/
theorem C5_draft_upsert (drafts : List EvaluationDraft)
    (in1 in2 : EvaluationDraftInput) (id1 t1 id2 t2 : String)
    (hinv : ∀ (t e : String) (v : Evaluator),
      (drafts.filter (matchesDraftKey t e v)).length ≤ 1)
    (hkey : in2.targetId = in1.targetId ∧ in2.evaluationDate = in1.evaluationDate
      ∧ in2.evaluator = in1.evaluator) :
    (∀ (t e : String) (v : Evaluator),
      ((DataService.saveEvaluationDraft in1 id1 t1 drafts).filter
        (matchesDraftKey t e v)).length ≤ 1)
    ∧ ((∀ d ∈ drafts,
        matchesDraftKey in1.targetId in1.evaluationDate in1.evaluator d = false) →
      DataService.saveEvaluationDraft in1 id1 t1 drafts
        = drafts ++ [newDraftFrom in1 id1 t1]
      ∧ (newDraftFrom in1 id1 t1).id = id1
      ∧ (newDraftFrom in1 id1 t1).createdAt = t1)
    ∧ (∀ (pre : List EvaluationDraft) (d : EvaluationDraft)
        (post : List EvaluationDraft), drafts = pre ++ d :: post →
        (∀ x ∈ pre,
          matchesDraftKey in1.targetId in1.evaluationDate in1.evaluator x = false) →
        matchesDraftKey in1.targetId in1.evaluationDate in1.evaluator d = true →
        DataService.saveEvaluationDraft in1 id1 t1 drafts
          = pre ++ overwriteDraft d in1 t1 :: post
        ∧ (overwriteDraft d in1 t1).id = d.id
        ∧ (overwriteDraft d in1 t1).createdAt = d.createdAt
        ∧ (overwriteDraft d in1 t1).evaluations = in1.evaluations
        ∧ (overwriteDraft d in1 t1).completionRate = in1.completionRate
        ∧ (overwriteDraft d in1 t1).lastSaved = t1
        ∧ (overwriteDraft d in1 t1).updatedAt = t1)
    ∧ ((DataService.saveEvaluationDraft in2 id2 t2
          (DataService.saveEvaluationDraft in1 id1 t1 drafts)).filter
        (matchesDraftKey in1.targetId in1.evaluationDate in1.evaluator)).length = 1
    ∧ (∀ d' ∈ DataService.saveEvaluationDraft in2 id2 t2
          (DataService.saveEvaluationDraft in1 id1 t1 drafts),
        matchesDraftKey in1.targetId in1.evaluationDate in1.evaluator d' = true →
        d'.evaluations = in2.evaluations ∧ d'.subChecks = in2.subChecks
          ∧ d'.comments = in2.comments ∧ d'.completionRate = in2.completionRate
          ∧ d'.lastSaved = t2) := by
  have hsave1 : ∀ (t e : String) (v : Evaluator),
      ((DataService.saveEvaluationDraft in1 id1 t1 drafts).filter
        (matchesDraftKey t e v)).length ≤ 1 := by
    intro t e v
    rw [saveEvaluationDraft_filter_length]
    by_cases hk : in1.targetId = t ∧ in1.evaluationDate = e ∧ in1.evaluator = v
    · rw [if_pos hk]
      have := hinv t e v
      omega
    · rw [if_neg hk]
      exact hinv t e v
  have hkey1 : matchesDraftKey in1.targetId in1.evaluationDate in1.evaluator
      = matchesDraftKey in2.targetId in2.evaluationDate in2.evaluator := by
    rw [hkey.1, hkey.2.1, hkey.2.2]
  refine ⟨hsave1, ?_, ?_, ?_, ?_⟩
  · intro hnone
    exact ⟨saveEvaluationDraft_of_no_match in1 id1 t1 drafts hnone, rfl, rfl⟩
  · intro pre d post hsplit hpre hd
    subst hsplit
    exact ⟨saveEvaluationDraft_of_first_match in1 id1 t1 pre d post hpre hd,
      rfl, rfl, rfl, rfl, rfl, rfl⟩
  · rw [hkey1, saveEvaluationDraft_filter_length]
    rw [if_pos ⟨rfl, rfl, rfl⟩]
    have h1 := hsave1 in2.targetId in2.evaluationDate in2.evaluator
    omega
  · intro d' hd' hm
    have hcount : ((DataService.saveEvaluationDraft in1 id1 t1 drafts).filter
        (matchesDraftKey in2.targetId in2.evaluationDate in2.evaluator)).length ≤ 1 :=
      hsave1 in2.targetId in2.evaluationDate in2.evaluator
    have hm2 : matchesDraftKey in2.targetId in2.evaluationDate in2.evaluator d'
        = true := by
      rw [← hkey1]
      exact hm
    exact saveEvaluationDraft_unique_match in2 id2 t2
      (DataService.saveEvaluationDraft in1 id1 t1 drafts) hcount d' hd' hm2

/-- A concrete draft payload for the store-layer witnesses. -/
def exDraftInput (n : Int) : EvaluationDraftInput :=
  { targetId := "T1", targetName := "田中太郎", evaluationDate := "2024-06-01",
    evaluator := Evaluator.staff, evaluations := fun _ _ _ => n,
    subChecks := fun _ _ _ _ => false, comments := fun _ _ _ => "",
    completionRate := 100 }

theorem C5_draft_upsert_witness :
    ((DataService.saveEvaluationDraft (exDraftInput 2) "draft_2" "t2"
        (DataService.saveEvaluationDraft (exDraftInput 1) "draft_1" "t1" [])).filter
      (matchesDraftKey (exDraftInput 1).targetId (exDraftInput 1).evaluationDate
        (exDraftInput 1).evaluator)).length = 1 :=
  (C5_draft_upsert [] (exDraftInput 1) (exDraftInput 2) "draft_1" "t1" "draft_2" "t2"
    (fun t e v => by simp) ⟨rfl, rfl, rfl⟩).2.2.2.1

/-! ## C6: finalizeDraft moves a draft into the record collection -/

theorem deleteEvaluationDraft_snd (drafts : List EvaluationDraft) (draftId : String) :
    (DataService.deleteEvaluationDraft drafts draftId).2
      = drafts.filter fun d => decide (¬ d.id = draftId) := by
  simp only [DataService.deleteEvaluationDraft]
  split
  next h => exact (List.filter_eq_self.mpr (List.filter_length_eq_length.mp h)).symm
  next _ => rfl

/-- C6: after `finalizeDraft` on an existing draft id, the draft with that
id is absent from the draft collection (which loses nothing else), and
exactly one new record is appended, carrying the draft's target, date,
evaluator and raw responses, with `totalScore` and `categoryScores`
recomputed from those raw responses (a draft stores no score fields to
copy); for a nonexistent id neither collection changes. -/
theorem C6_finalize_draft (store : EvaluationStore) (draftId newId now : String) :
    (DataService.loadEvaluationDraft store.evaluationDrafts draftId = none →
      finalizeDraft store draftId newId now = store)
    ∧ ∀ draft,
        DataService.loadEvaluationDraft store.evaluationDrafts draftId = some draft →
        (∀ d ∈ (finalizeDraft store draftId newId now).evaluationDrafts,
          ¬ d.id = draftId)
        ∧ (∀ d ∈ (finalizeDraft store draftId newId now).evaluationDrafts,
            d ∈ store.evaluationDrafts)
        ∧ (∀ d ∈ store.evaluationDrafts, ¬ d.id = draftId →
            d ∈ (finalizeDraft store draftId newId now).evaluationDrafts)
        ∧ (finalizeDraft store draftId newId now).evaluationRecords
            = store.evaluationRecords
              ++ [newRecordFrom
                    { targetId := draft.targetId, targetName := draft.targetName,
                      evaluationDate := draft.evaluationDate,
                      evaluator := draft.evaluator,
                      evaluations := draft.evaluations, subChecks := draft.subChecks,
                      comments := draft.comments,
                      totalScore := finalizeTotalScore draft.evaluations draft.evaluator,
                      categoryScores :=
                        finalizeCategoryScores draft.evaluations draft.evaluator }
                    newId now] := by
  constructor
  · intro h
    simp [finalizeDraft, h]
  · intro draft h
    have hstate : finalizeDraft store draftId newId now
        = { evaluationRecords :=
              DataService.saveEvaluationRecord store.evaluationRecords
                { targetId := draft.targetId, targetName := draft.targetName,
                  evaluationDate := draft.evaluationDate, evaluator := draft.evaluator,
                  evaluations := draft.evaluations, subChecks := draft.subChecks,
                  comments := draft.comments,
                  totalScore := finalizeTotalScore draft.evaluations draft.evaluator,
                  categoryScores :=
                    finalizeCategoryScores draft.evaluations draft.evaluator }
                newId now,
            evaluationDrafts :=
              (DataService.deleteEvaluationDraft store.evaluationDrafts draftId).2 } := by
      simp [finalizeDraft, h]
    refine ⟨?_, ?_, ?_, ?_⟩
    · intro d hd
      rw [hstate] at hd
      simp only [deleteEvaluationDraft_snd] at hd
      have := (List.mem_filter.mp hd).2
      simpa using this
    · intro d hd
      rw [hstate] at hd
      simp only [deleteEvaluationDraft_snd] at hd
      exact (List.mem_filter.mp hd).1
    · intro d hd hne
      rw [hstate]
      simp only [deleteEvaluationDraft_snd]
      exact List.mem_filter.mpr ⟨hd, by simpa using hne⟩
    · rw [hstate]
      rfl

/-- A concrete draft and store for the C6 witness. -/
def exDraft : EvaluationDraft :=
  { id := "draft_1", targetId := "T1", targetName := "田中太郎",
    evaluationDate := "2024-06-01", evaluator := Evaluator.staff,
    evaluations := scenarioEvals, subChecks := fun _ _ _ _ => false,
    comments := fun _ _ _ => "", completionRate := 6, lastSaved := "t1",
    createdAt := "t1", updatedAt := "t1" }

def exStore : EvaluationStore :=
  { evaluationRecords := [], evaluationDrafts := [exDraft] }

theorem C6_finalize_draft_witness :
    (finalizeDraft exStore "draft_1" "eval_1" "t2").evaluationRecords.length
      = exStore.evaluationRecords.length + 1
    ∧ finalizeDraft exStore "missing" "eval_1" "t2" = exStore := by
  constructor
  · have h := (C6_finalize_draft exStore "draft_1" "eval_1" "t2").2 exDraft rfl
    rw [h.2.2.2]
    simp
  · exact (C6_finalize_draft exStore "missing" "eval_1" "t2").1 rfl

/-! ## C7: target deletion and its asymmetric cascade -/

theorem filter_length_lt_of_mem {α : Type} (p : α → Bool) (l : List α) (x : α)
    (hx : x ∈ l) (hpx : p x = false) : (l.filter p).length < l.length := by
  by_contra hcon
  push_neg at hcon
  have heq : (l.filter p).length = l.length :=
    le_antisymm (List.length_filter_le p l) hcon
  have := List.filter_length_eq_length.mp heq x hx
  rw [hpx] at this
  simp at this

/-- C7: deleting a SupportTarget removes the target and exactly the
EvaluationRecords whose targetId matches, and nothing else — the drafts and
goals collections are untouched and entities of other targets survive;
deleting a nonexistent id returns false and changes nothing. -/
theorem C7_delete_target_cascade (store : AppStore) (id : String) :
    ((∀ t ∈ store.supportTargets, ¬ t.id = id) →
      DataService.deleteSupportTarget store id = (false, store))
    ∧ ∀ t₀ ∈ store.supportTargets, t₀.id = id →
        (DataService.deleteSupportTarget store id).1 = true
        ∧ (∀ t ∈ (DataService.deleteSupportTarget store id).2.supportTargets,
            ¬ t.id = id)
        ∧ (∀ t ∈ store.supportTargets, ¬ t.id = id →
            t ∈ (DataService.deleteSupportTarget store id).2.supportTargets)
        ∧ (∀ t ∈ (DataService.deleteSupportTarget store id).2.supportTargets,
            t ∈ store.supportTargets)
        ∧ (∀ r ∈ (DataService.deleteSupportTarget store id).2.evaluationRecords,
            ¬ r.targetId = id)
        ∧ (∀ r ∈ store.evaluationRecords, ¬ r.targetId = id →
            r ∈ (DataService.deleteSupportTarget store id).2.evaluationRecords)
        ∧ (∀ r ∈ (DataService.deleteSupportTarget store id).2.evaluationRecords,
            r ∈ store.evaluationRecords)
        ∧ (DataService.deleteSupportTarget store id).2.evaluationDrafts
            = store.evaluationDrafts
        ∧ (DataService.deleteSupportTarget store id).2.supportGoals
            = store.supportGoals := by
  constructor
  · intro hnone
    have hall : ∀ t ∈ store.supportTargets, (fun t => decide (¬ t.id = id)) t = true := by
      intro t ht
      simpa using hnone t ht
    simp only [DataService.deleteSupportTarget]
    rw [if_pos]
    exact congrArg List.length (List.filter_eq_self.mpr hall)
  · intro t₀ ht₀ hid
    have hlt : ((store.supportTargets.filter fun t => decide (¬ t.id = id)).length
        < store.supportTargets.length) :=
      filter_length_lt_of_mem _ _ t₀ ht₀ (by simp [hid])
    have hstate : DataService.deleteSupportTarget store id
        = (true,
          { store with
            supportTargets := store.supportTargets.filter fun t => decide (¬ t.id = id),
            evaluationRecords :=
              DataService.deleteEvaluationRecordsByTarget store.evaluationRecords id }) := by
      simp only [DataService.deleteSupportTarget]
      rw [if_neg (by omega)]
    rw [hstate]
    refine ⟨rfl, ?_, ?_, ?_, ?_, ?_, ?_, rfl, rfl⟩
    · intro t ht
      have := (List.mem_filter.mp ht).2
      simpa using this
    · intro t ht hne
      exact List.mem_filter.mpr ⟨ht, by simpa using hne⟩
    · intro t ht
      exact (List.mem_filter.mp ht).1
    · intro r hr
      have := (List.mem_filter.mp hr).2
      simpa using this
    · intro r hr hne
      exact List.mem_filter.mpr ⟨hr, by simpa using hne⟩
    · intro r hr
      exact (List.mem_filter.mp hr).1

/-- Concrete entities for the C7 witness: two targets, one record each, one
draft and one goal for the deleted target. -/
def exTarget (n : String) : SupportTarget :=
  { id := n, userId := "U1", name := "田中太郎", birthdate := "1999-03-15",
    email := "", gender := "male", disability := "", supportStartDate := "2024-01-15",
    notes := "", createdAt := "t0", updatedAt := "t0" }

def exRecordFor (tid : String) : EvaluationRecord :=
  { id := "eval_" ++ tid, targetId := tid, targetName := "田中太郎",
    evaluationDate := "2024-06-01", evaluator := Evaluator.staff,
    evaluations := fun _ _ _ => 0, subChecks := fun _ _ _ _ => false,
    comments := fun _ _ _ => "", totalScore := 0, categoryScores := [],
    createdAt := "t0", updatedAt := "t0" }

def exGoal : SupportGoal :=
  { id := "goal_1", targetId := "T1", targetName := "田中太郎",
    goalDate := "2024-06-01", selectedGoal := "", actionPlan := "",
    successCriteria := "", supportNeeded := "", createdAt := "t0",
    updatedAt := "t0" }

def exAppStore : AppStore :=
  { supportTargets := [exTarget "T1", exTarget "T2"],
    evaluationRecords := [exRecordFor "T1", exRecordFor "T2"],
    evaluationDrafts := [exDraft],
    supportGoals := [exGoal] }

theorem C7_delete_target_cascade_witness :
    (DataService.deleteSupportTarget exAppStore "T1").1 = true
    ∧ (DataService.deleteSupportTarget exAppStore "T1").2.evaluationDrafts
        = exAppStore.evaluationDrafts
    ∧ (DataService.deleteSupportTarget exAppStore "T1").2.supportGoals
        = exAppStore.supportGoals := by
  have h := (C7_delete_target_cascade exAppStore "T1").2 (exTarget "T1")
    (List.mem_cons_self _ _) rfl
  exact ⟨h.1, h.2.2.2.2.2.2.2.1, h.2.2.2.2.2.2.2.2⟩

/-! ## C9: the completion rate stored on draft saves -/

/-- Modelled from the words of the claim: the number of checklist items
bearing a nonzero raw response of the given evaluator. -/
def answeredItemCount (evals : Evaluations) (ev : Evaluator) : Nat :=
  (categories.enum.map fun p =>
    ((List.range p.2.items.length).filter fun i =>
      decide (¬ evals ev p.1 i = 0)).length).sum

/-- The total number of checklist items across the three categories. -/
def totalItemCount : Nat :=
  (categories.map fun category => category.items.length).sum

theorem calculateCompletionRate_spec (evals : Evaluations) (ev : Evaluator)
    (hdom : inDomain evals) :
    calculateCompletionRate evals ev
      = jsRound (100 * (answeredItemCount evals ev : ℚ) / (totalItemCount : ℚ)) := by
  have htotal : categories.foldl (fun total category => total + category.items.length) 0
      = totalItemCount := by decide
  have hcount : (categories.enum.map fun p =>
        ((List.range p.2.items.length).filter fun i =>
          decide (0 < evals ev p.1 i)).length).sum
      = answeredItemCount evals ev := by
    unfold answeredItemCount
    congr 1
    apply List.map_congr_left
    intro p hp
    congr 1
    apply List.filter_congr
    intro i hi
    have hlt : i < p.2.items.length := List.mem_range.mp hi
    have hitem : itemAt p.1 i = some (p.2.items.get ⟨i, hlt⟩) := by
      simp only [itemAt, categories_get?_of_mem_enum hp, Option.bind_some]
      exact List.get?_eq_get hlt
    have hdq := hdom ev p.1 i (p.2.items.get ⟨i, hlt⟩) hitem
    rw [decide_eq_decide]
    omega
  simp only [calculateCompletionRate, htotal, hcount]
  congr 1
  ring

theorem calculateCompletionRate_bounds (evals : Evaluations) (ev : Evaluator) :
    0 ≤ calculateCompletionRate evals ev ∧ calculateCompletionRate evals ev ≤ 100 := by
  have hle : (categories.enum.map fun p =>
        ((List.range p.2.items.length).filter fun i =>
          decide (0 < evals ev p.1 i)).length).sum
      ≤ (categories.enum.map fun p => p.2.items.length).sum := by
    apply List.sum_le_sum
    intro p _
    calc ((List.range p.2.items.length).filter fun i =>
          decide (0 < evals ev p.1 i)).length
        ≤ (List.range p.2.items.length).length := List.length_filter_le _ _
      _ = p.2.items.length := List.length_range _
  have h34 : (categories.enum.map fun p => p.2.items.length).sum = 34 := by decide
  have htotal : categories.foldl (fun total category => total + category.items.length) 0
      = 34 := by decide
  rw [h34] at hle
  simp only [calculateCompletionRate, htotal]
  set a : Nat := (categories.enum.map fun p =>
    ((List.range p.2.items.length).filter fun i =>
      decide (0 < evals ev p.1 i)).length).sum with ha
  have haq : (0 : ℚ) ≤ (a : ℚ) / (34 : ℚ) * 100 := by positivity
  have haq2 : (a : ℚ) / (34 : ℚ) * 100 ≤ 100 := by
    have : (a : ℚ) ≤ 34 := by exact_mod_cast hle
    rw [div_mul_eq_mul_div, div_le_iff₀ (by norm_num)]
    nlinarith
  constructor
  · apply Int.le_floor.mpr
    push_cast
    linarith
  · have : jsRound ((a : ℚ) / ((34 : Nat) : ℚ) * 100) < 101 := by
      apply Int.floor_lt.mpr
      push_cast
      linarith
    omega

/-- C9: on every draft save the stored completionRate equals
`round(100 * answeredItemCount / totalItemCount)` for the active
evaluator's nonzero responses; responses of other evaluators and zero
responses do not count, and the result is an integer in 0..100. -/
theorem C9_completion_rate (session : SessionState)
    (hdom : inDomain session.evaluations) :
    (saveDraftInput session).completionRate
        = jsRound (100 * (answeredItemCount session.evaluations
              session.activeEvaluator : ℚ) / (totalItemCount : ℚ))
    ∧ 0 ≤ (saveDraftInput session).completionRate
    ∧ (saveDraftInput session).completionRate ≤ 100
    ∧ (∀ evals₂ : Evaluations,
        (∀ c i, session.evaluations session.activeEvaluator c i
          = evals₂ session.activeEvaluator c i) →
        calculateCompletionRate session.evaluations session.activeEvaluator
          = calculateCompletionRate evals₂ session.activeEvaluator)
    ∧ (∀ (d : EvaluationDraft) (newId now : String),
        (newDraftFrom (saveDraftInput session) newId now).completionRate
            = calculateCompletionRate session.evaluations session.activeEvaluator
        ∧ (overwriteDraft d (saveDraftInput session) now).completionRate
            = calculateCompletionRate session.evaluations session.activeEvaluator) := by
  refine ⟨?_, ?_, ?_, ?_, ?_⟩
  · exact calculateCompletionRate_spec session.evaluations session.activeEvaluator hdom
  · exact (calculateCompletionRate_bounds session.evaluations
      session.activeEvaluator).1
  · exact (calculateCompletionRate_bounds session.evaluations
      session.activeEvaluator).2
  · intro evals₂ hagree
    have hmapeq : (categories.enum.map fun p =>
          ((List.range p.2.items.length).filter fun i =>
            decide (0 < session.evaluations session.activeEvaluator p.1 i)).length)
        = (categories.enum.map fun p =>
          ((List.range p.2.items.length).filter fun i =>
            decide (0 < evals₂ session.activeEvaluator p.1 i)).length) := by
      apply List.map_congr_left
      intro p _
      congr 1
      apply List.filter_congr
      intro i _
      rw [hagree p.1 i]
    simp only [calculateCompletionRate, hmapeq]
  · intro d newId now
    exact ⟨rfl, rfl⟩

/-- A concrete session for the C9 witness. -/
def exSession : SessionState :=
  { selectedTargetId := "T1", selectedTargetName := "田中太郎",
    currentDate := "2024-06-01", activeEvaluator := Evaluator.staff,
    evaluations := scenarioEvals, subChecks := fun _ _ _ _ => false,
    comments := fun _ _ _ => "" }

theorem C9_completion_rate_witness :
    (saveDraftInput exSession).completionRate
      = jsRound (100 * (answeredItemCount exSession.evaluations
            exSession.activeEvaluator : ℚ) / (totalItemCount : ℚ))
    ∧ 0 ≤ (saveDraftInput exSession).completionRate
    ∧ (saveDraftInput exSession).completionRate ≤ 100 := by
  have h := C9_completion_rate exSession scenarioEvals_inDomain
  exact ⟨h.1, h.2.1, h.2.2.1⟩

/-! ## C8: behaviour of the transform on out-of-domain input -/

/-- Out-of-domain responses: staff answers the 5-level item I-1 with raw 6
and the 2-level item I-11 with raw 3. -/
def c8Evals : Evaluations := fun ev c i =>
  if ev = Evaluator.staff ∧ c = 0 ∧ i = 0 then 6
  else if ev = Evaluator.staff ∧ c = 0 ∧ i = 10 then 3
  else 0

/-- C8 counterexample: the transform does not fail fast on out-of-domain
input — raw 6 on the 5-level item I-1 silently yields the ordinary value 0
(indistinguishable from the unanswered sentinel) and raw 3 on the 2-level
item I-11 silently yields 1; no contract violation is signalled anywhere
(the function is total). -/
theorem C8_no_fail_fast_counterexample :
    getEvaluationScore c8Evals Evaluator.staff 0 0 = 0
    ∧ getEvaluationScore c8Evals Evaluator.staff 0 10 = 1
    ∧ getEvaluationScore c8Evals Evaluator.staff 0 0
        = getEvaluationScore (fun _ _ _ => 0) Evaluator.staff 0 0 := by
  exact ⟨by decide, by decide, by decide⟩

/-- C8 (amended): the transform does no domain validation and never throws
on any input: an out-of-domain raw response is mapped by the same arithmetic
as an in-domain one — on a 5-level item every raw ≥ 6 yields the
nonpositive score 6 − raw (raw 6 collides with the unanswered sentinel 0)
and every raw < 0 yields a score above the scale maximum; on a 2-level item
every nonzero raw other than 1, in or out of domain, yields 1. -/
theorem C8_no_domain_validation_amended (evals : Evaluations) (ev : Evaluator)
    (c i : Nat) (item : ChecklistItem) (hitem : itemAt c i = some item) :
    (item.type ≠ ItemType.radio_2_level_with_sub_check →
      (6 ≤ evals ev c i → getEvaluationScore evals ev c i ≤ 0)
      ∧ (evals ev c i = 6 → getEvaluationScore evals ev c i = 0)
      ∧ (evals ev c i < 0 → 6 < getEvaluationScore evals ev c i))
    ∧ (item.type = ItemType.radio_2_level_with_sub_check →
        ¬ evals ev c i = 0 → ¬ evals ev c i = 1 →
        getEvaluationScore evals ev c i = 1) := by
  have hbase := getEvaluationScore_eq_of_itemAt evals ev hitem
  constructor
  · intro htype
    have hconv : ∀ r : Int, convertedScoreOf item r = 6 - r := by
      intro r
      simp [convertedScoreOf, htype]
    refine ⟨?_, ?_, ?_⟩
    · intro h6
      rw [hbase, if_neg (by omega), hconv]
      omega
    · intro h6
      rw [hbase, if_neg (by omega), hconv, h6]
      norm_num
    · intro hneg
      rw [hbase, if_neg (by omega), hconv]
      omega
  · intro htype h0 h1
    rw [hbase, if_neg h0]
    simp [convertedScoreOf, htype, h1]

theorem C8_no_domain_validation_amended_witness :
    getEvaluationScore c8Evals Evaluator.staff 0 0 = 0
    ∧ getEvaluationScore c8Evals Evaluator.staff 0 10 = 1 := by
  constructor
  · exact ((C8_no_domain_validation_amended c8Evals Evaluator.staff 0 0
      ⟨"I-1", ItemType.radio_5_level⟩ (by decide)).1 (by decide)).2.1 (by decide)
  · exact (C8_no_domain_validation_amended c8Evals Evaluator.staff 0 10
      ⟨"I-11", ItemType.radio_2_level_with_sub_check⟩ (by decide)).2 rfl
      (by decide) (by decide)

/-! ## C10: records are append-only, never upserted -/

/-- The composite-key test on records mirroring the draft key (used only to
state the accumulation property; the source has no such lookup for
records). -/
def matchesRecordKey (targetId evaluationDate : String) (evaluator : Evaluator)
    (r : EvaluationRecord) : Bool :=
  decide (r.targetId = targetId ∧ r.evaluationDate = evaluationDate
    ∧ r.evaluator = evaluator)

/-- C10: `DataService.saveEvaluationRecord` always appends exactly one new
record bearing the fresh id, leaving every existing record in place —
there is no composite-key upsert for records, so two saves for the same
`(targetId, evaluationDate, evaluator)` key leave two records for that
key. -/
theorem C10_record_append (records : List EvaluationRecord)
    (rec1 rec2 : EvaluationRecordInput) (id1 t1 id2 t2 : String)
    (hkey : rec2.targetId = rec1.targetId ∧ rec2.evaluationDate = rec1.evaluationDate
      ∧ rec2.evaluator = rec1.evaluator) :
    DataService.saveEvaluationRecord records rec1 id1 t1
        = records ++ [newRecordFrom rec1 id1 t1]
    ∧ (newRecordFrom rec1 id1 t1).id = id1
    ∧ (DataService.saveEvaluationRecord records rec1 id1 t1).length
        = records.length + 1
    ∧ (∀ r ∈ records, r ∈ DataService.saveEvaluationRecord records rec1 id1 t1)
    ∧ ((DataService.saveEvaluationRecord
          (DataService.saveEvaluationRecord records rec1 id1 t1) rec2 id2 t2).filter
        (matchesRecordKey rec1.targetId rec1.evaluationDate rec1.evaluator)).length
      = (records.filter
          (matchesRecordKey rec1.targetId rec1.evaluationDate rec1.evaluator)).length
        + 2 := by
  refine ⟨rfl, rfl, ?_, ?_, ?_⟩
  · simp [DataService.saveEvaluationRecord]
  · intro r hr
    simp [DataService.saveEvaluationRecord, hr]
  · have hm1 : matchesRecordKey rec1.targetId rec1.evaluationDate rec1.evaluator
        (newRecordFrom rec1 id1 t1) = true := by
      simp only [matchesRecordKey, decide_eq_true_eq]
      exact ⟨rfl, rfl, rfl⟩
    have hm2 : matchesRecordKey rec1.targetId rec1.evaluationDate rec1.evaluator
        (newRecordFrom rec2 id2 t2) = true := by
      simp only [matchesRecordKey, decide_eq_true_eq]
      exact ⟨hkey.1, hkey.2.1, hkey.2.2⟩
    simp [DataService.saveEvaluationRecord, List.filter_append, List.filter_cons,
      hm1, hm2]

/-- A concrete record payload for the C10 witness. -/
def exRecordInput : EvaluationRecordInput :=
  { targetId := "T1", targetName := "田中太郎", evaluationDate := "2024-06-01",
    evaluator := Evaluator.staff, evaluations := scenarioEvals,
    subChecks := fun _ _ _ _ => false, comments := fun _ _ _ => "",
    totalScore := 8, categoryScores := [] }

theorem C10_record_append_witness :
    ((DataService.saveEvaluationRecord
        (DataService.saveEvaluationRecord [] exRecordInput "eval_1" "t1")
        exRecordInput "eval_2" "t2").filter
      (matchesRecordKey exRecordInput.targetId exRecordInput.evaluationDate
        exRecordInput.evaluator)).length
    = (([] : List EvaluationRecord).filter
        (matchesRecordKey exRecordInput.targetId exRecordInput.evaluationDate
          exRecordInput.evaluator)).length + 2 :=
  (C10_record_append [] exRecordInput exRecordInput "eval_1" "t1" "eval_2" "t2"
    ⟨rfl, rfl, rfl⟩).2.2.2.2
